import Mathlib

/-!
# Prompt marketplace front-end (`src/App.jsx`)

A shallow embedding of the event handlers of the `App` component: the wallet
connection (`init`, `connectWallet`), the submission flow (`uploadToLighthouse`,
`fetchPromptCount`) and the retrieval flow (`fetchUserPrompts`,
`fetchPromptFromLighthouse`).

The component state (the seven `useState` cells) is an explicit record `View`
that is passed through the handlers.  The wallet provider, the ledger handle,
the storage SDK and the HTTP gateway are external collaborators: they are a
record `World` of oracles, each of which may answer differently depending on
everything that happened before (the log of events so far).  A handler returns
the new view together with the events it emitted, every call to a collaborator
being logged with the answer it got.
-/

namespace PromptApp

/-! ## Values exchanged with the collaborators -/

/-- A JavaScript exception or promise rejection. -/
structure Err where
  msg : String
  deriving DecidableEq, Repr

/-- Outcome of an awaited call: a value, or a thrown error. -/
inductive Res (α : Type) where
  | ok (value : α)
  | error (err : Err)
  deriving DecidableEq, Repr

/-- Content identifier (an opaque string). -/
abbrev Cid := String

/-- Account address as handed out by the wallet. -/
abbrev Address := String

/-- The injected wallet object `window.ethereum`. -/
structure Ethereum where
  id : Nat
  deriving DecidableEq, Repr

/-- Result of `new ethers.BrowserProvider(window.ethereum)`. -/
structure Provider where
  ethereum : Ethereum
  deriving DecidableEq, Repr

/-- Result of `provider.getSigner()`. -/
structure Signer where
  address : Address
  deriving DecidableEq, Repr

/-- Result of `new ethers.Contract(CONTRACT_ADDRESS, ABI, signer)`: the ledger
handle, which remembers the address it targets and the signer it was built from. -/
structure Contract where
  target : Option Address
  signer : Signer
  deriving DecidableEq, Repr

/-- A file picked in the file input. -/
structure File where
  name : String
  deriving DecidableEq, Repr

/-- The transaction response that `contract.addPrompt` resolves to. -/
structure Tx where
  hash : String
  deriving DecidableEq, Repr

/-- The `Response` that `fetch` resolves to. -/
structure Response where
  id : Nat
  deriving DecidableEq, Repr

/-- What `response.json()` resolves to: JSON `null` or a prompt record. -/
inductive Json where
  | null
  | record (name description category content : String)
  deriving DecidableEq, Repr

/-- What `lighthouse.upload` resolves to, as far as line 96 (`response.data.Hash`)
can tell: either `response.data` is missing, so that reading `.Hash` throws, or
`response.data` is an object whose `Hash` is a string or is `undefined`. -/
inductive UploadResponse where
  | noData
  | data (hash : Option Cid)
  deriving DecidableEq, Repr

/-- Argument of the upload progress callback. -/
structure ProgressData where
  uploaded : Nat
  total : Nat
  deriving DecidableEq, Repr

/-- What `contract.getPromptCount` resolves to, as far as the guard
`count && count.toNumber` and the call `count.toNumber()` can tell:
a falsy value, a truthy value without a `toNumber` member, or a truthy value
with a `toNumber` member whose call returns a number or throws. -/
inductive CountValue where
  | falsy
  | noToNumber
  | withToNumber (result : Res Nat)
  deriving DecidableEq, Repr

/-- The two things written with `console.log`. -/
inductive LogLine where
  | uploadProgress (p : ProgressData)
  | uploadedCid (cid : Option Cid)
  deriving DecidableEq, Repr

/-! ## Events -/

/-- One observable step of a handler.  A call to a collaborator is logged together
with its outcome. -/
inductive Event where
  | newProvider (eth : Ethereum) (threw : Option Err)
  | requestAccounts (p : Provider) (r : Res (List Address))
  | getSigner (p : Provider) (r : Res Signer)
  | newContract (target : Option Address) (signer : Signer) (threw : Option Err)
  | upload (file : File) (apiKey : Option String) (r : Res UploadResponse)
  | addPrompt (c : Contract) (cid : Option Cid) (r : Res Tx)
  | txWait (tx : Tx) (r : Res Unit)
  | getPromptCount (c : Contract) (user : Option Address) (r : Res CountValue)
  | getPrompt (c : Contract) (user : Option Address) (index : Nat) (r : Res Cid)
  | fetch (url : String) (r : Res Response)
  | json (resp : Response) (r : Res Json)
  | alert (msg : String)
  | consoleError (msg : String)
  | consoleLog (line : LogLine)
  deriving DecidableEq, Repr

/-- The collaborators.  Every oracle sees the log of all events so far, so that
its answers may depend on the whole history of the page. -/
structure World where
  /-- The global `window.ethereum`, if a wallet extension is installed. -/
  ethereum : Option Ethereum
  /-- The constant `CONTRACT_ADDRESS` (an environment variable). -/
  contractAddress : Option Address
  /-- The constant `API_KEY` (an environment variable). -/
  apiKey : Option String
  /-- Whether `new ethers.BrowserProvider(eth)` throws. -/
  newProvider : List Event → Ethereum → Option Err
  /-- The call `provider.send("eth_requestAccounts", [])`. -/
  send : List Event → Provider → Res (List Address)
  /-- The call `provider.getSigner()`. -/
  getSigner : List Event → Provider → Res Signer
  /-- Whether `new ethers.Contract(CONTRACT_ADDRESS, ABI, signer)` throws. -/
  newContract : List Event → Option Address → Signer → Option Err
  /-- The call `lighthouse.upload(file, API_KEY, null, progressCallback)`: the
  progress reports it makes through the callback, and its outcome. -/
  upload : List Event → File → Option String → List ProgressData × Res UploadResponse
  /-- The call `contract.addPrompt(cid)`. -/
  addPrompt : List Event → Contract → Option Cid → Res Tx
  /-- The call `tx.wait()`. -/
  wait : List Event → Tx → Res Unit
  /-- The call `contract.getPromptCount(user)`. -/
  getPromptCount : List Event → Contract → Option Address → Res CountValue
  /-- The call `contract.getPrompt(user, index)`. -/
  getPrompt : List Event → Contract → Option Address → Nat → Res Cid
  /-- The call `fetch(url)`. -/
  fetch : List Event → String → Res Response
  /-- The call `response.json()`. -/
  json : List Event → Response → Res Json

/-! ## Component state -/

/-- The state cells of `App` (lines 36-46).  `account` is `none` when it holds
`undefined` (the first element of an empty account list). -/
structure View where
  account : Option Address
  contract : Option Contract
  provider : Option Provider
  selectedFile : Option File
  promptCount : Nat
  prompts : List Json
  metadata : List (String × String)
  deriving DecidableEq, Repr

/-- The initial values passed to `useState`. -/
def View.initial : View :=
  { account := some ""
    contract := none
    provider := none
    selectedFile := none
    promptCount := 0
    prompts := []
    metadata := [("name", ""), ("description", ""), ("category", "ML")] }

/-! ## Messages -/

def msgNoWallet : String := "MetaMask not detected"
def msgConnectFailed : String := "Failed to connect MetaMask. Please try again."
def msgSelectFile : String := "Select a file to upload"
def msgStored : String := "Prompt stored successfully"
def msgSubmitFailed : String := "Failed to upload or store prompt. Please try again."
def msgRetrieveFailed : String := "Failed to retrieve prompts. Please try again."

/-- The gateway URL of line 147. -/
def gatewayUrl (cid : Cid) : String :=
  "https://gateway.lighthouse.storage/ipfs/" ++ cid

/-! ## Handlers -/

/-- Lines 112-126.  The count is stored only when the value read from the ledger
passes the guard and its `toNumber()` returns; every failure is logged and
swallowed. -/
def fetchPromptCount (w : World) (contract : Contract) (user : Option Address)
    (s : View) (h : List Event) : View × List Event :=
  let r := w.getPromptCount h contract user
  let e := Event.getPromptCount contract user r
  match r with
  | .error _ => (s, [e, .consoleError "Error fetching prompt count:"])
  | .ok .falsy => (s, [e, .consoleError "Invalid value for prompt count"])
  | .ok .noToNumber => (s, [e, .consoleError "Invalid value for prompt count"])
  | .ok (.withToNumber (.error _)) => (s, [e, .consoleError "Error fetching prompt count:"])
  | .ok (.withToNumber (.ok n)) => ({ s with promptCount := n }, [e])

/-- Lines 61-73.  `provider` is the argument of the call: `null` makes
`provider.send` throw a `TypeError` inside the `try`.  `setAccount` (line 64) has
already run when `getSigner` or the `Contract` constructor throws.  The count read
of line 68 is started without `await`; it is run to its end in place. -/
def connectWallet (w : World) (provider : Option Provider) (s : View) (h : List Event) :
    View × List Event :=
  let failed : List Event := [.consoleError "Error connecting wallet:", .alert msgConnectFailed]
  match provider with
  | none => (s, failed)
  | some p =>
    let r1 := w.send h p
    let e1 := Event.requestAccounts p r1
    match r1 with
    | .error _ => (s, e1 :: failed)
    | .ok accounts =>
      let s1 := { s with account := accounts.head? }
      let r2 := w.getSigner (h ++ [e1]) p
      let e2 := Event.getSigner p r2
      match r2 with
      | .error _ => (s1, e1 :: e2 :: failed)
      | .ok signer =>
        let r3 := w.newContract (h ++ [e1, e2]) w.contractAddress signer
        let e3 := Event.newContract w.contractAddress signer r3
        match r3 with
        | some _ => (s1, e1 :: e2 :: e3 :: failed)
        | none =>
          let contract : Contract := { target := w.contractAddress, signer := signer }
          let s2 := { s1 with contract := some contract }
          let out := fetchPromptCount w contract accounts.head? s2 (h ++ [e1, e2, e3])
          (out.1, e1 :: e2 :: e3 :: out.2)

/-- Lines 48-59, the effect run on page load. -/
def init (w : World) (s : View) (h : List Event) : View × List Event :=
  match w.ethereum with
  | some eth =>
    let r := w.newProvider h eth
    let e := Event.newProvider eth r
    match r with
    | some _ => (s, [e])
    | none =>
      let provider : Provider := { ethereum := eth }
      let out := connectWallet w (some provider) { s with provider := some provider } (h ++ [e])
      (out.1, e :: out.2)
  | none => (s, [.alert msgNoWallet])

/-- Lines 75-77: `files` is the file list of the input element. -/
def handleFileChange (files : List File) (s : View) : View :=
  { s with selectedFile := files.head? }

/-- Lines 79-81: the entry `name` of the metadata object is set to `value`. -/
def handleInputChange (name value : String) (s : View) : View :=
  { s with metadata :=
      if s.metadata.any (fun kv => kv.1 == name) then
        s.metadata.map (fun kv => if kv.1 == name then (name, value) else kv)
      else s.metadata ++ [(name, value)] }

/-- The lines the progress callback of lines 87-90 writes, one per report. -/
def progressLog (reports : List ProgressData) : List Event :=
  reports.map fun p => Event.consoleLog (.uploadProgress p)

/-- Lines 83-110.  The progress lines are written by the callback while the upload
is pending; the log lists them right after the upload event, which records the call
together with its outcome.  The count read of line 104 is started without `await`;
it is run to its end in place, no other handler being interleaved. -/
def uploadToLighthouse (w : World) (s : View) (h : List Event) : View × List Event :=
  let failed : List Event :=
    [.consoleError "Error uploading to Lighthouse or storing in contract:", .alert msgSubmitFailed]
  match s.selectedFile with
  | none => (s, [.alert msgSelectFile])
  | some file =>
    let up := w.upload h file w.apiKey
    let e1 := Event.upload file w.apiKey up.2
    let progress : List Event := progressLog up.1
    match up.2 with
    | .error _ => (s, e1 :: progress ++ failed)
    | .ok .noData => (s, e1 :: progress ++ failed)
    | .ok (.data cid) =>
      let logged : List Event := e1 :: progress ++ [.consoleLog (.uploadedCid cid)]
      match s.contract with
      | none => (s, logged)
      | some contract =>
        let r2 := w.addPrompt (h ++ logged) contract cid
        let e2 := Event.addPrompt contract cid r2
        match r2 with
        | .error _ => (s, logged ++ e2 :: failed)
        | .ok tx =>
          let r3 := w.wait (h ++ logged ++ [e2]) tx
          let e3 := Event.txWait tx r3
          match r3 with
          | .error _ => (s, logged ++ e2 :: e3 :: failed)
          | .ok _ =>
            let done : List Event := logged ++ [e2, e3, .alert msgStored]
            let out := fetchPromptCount w contract s.account s (h ++ done)
            (out.1, done ++ out.2)

/-- Lines 145-154: the payload stored under `cid`, or `null` when the request or
the decoding of its body fails. -/
def fetchPromptFromLighthouse (w : World) (cid : Cid) (h : List Event) : Json × List Event :=
  let r1 := w.fetch h (gatewayUrl cid)
  let e1 := Event.fetch (gatewayUrl cid) r1
  match r1 with
  | .error _ => (.null, [e1, .consoleError "Error fetching prompt from Lighthouse:"])
  | .ok response =>
    let r2 := w.json (h ++ [e1]) response
    let e2 := Event.json response r2
    match r2 with
    | .error _ => (.null, [e1, e2, .consoleError "Error fetching prompt from Lighthouse:"])
    | .ok data => (data, [e1, e2])

/-- The `for` loop of lines 133-137, entered with loop variable `i` and
`remaining = promptCount - i` iterations to go; `acc` is `retrievedPrompts`.
A failing ledger read leaves the loop with the error. -/
def retrieveLoop (w : World) (contract : Contract) (account : Option Address) :
    Nat → Nat → List Json → List Event → Res (List Json) × List Event
  | 0, _, acc, _ => (.ok acc, [])
  | remaining + 1, i, acc, h =>
    let r := w.getPrompt h contract account i
    let e := Event.getPrompt contract account i r
    match r with
    | .error err => (.error err, [e])
    | .ok cid =>
      let got := fetchPromptFromLighthouse w cid (h ++ [e])
      let rest := retrieveLoop w contract account remaining (i + 1) (acc ++ [got.1])
        (h ++ e :: got.2)
      (rest.1, e :: got.2 ++ rest.2)

/-- Lines 128-143. -/
def fetchUserPrompts (w : World) (s : View) (h : List Event) : View × List Event :=
  match s.contract with
  | none => (s, [])
  | some contract =>
    let out := retrieveLoop w contract s.account s.promptCount 0 [] h
    match out.1 with
    | .ok retrievedPrompts => ({ s with prompts := retrievedPrompts }, out.2)
    | .error _ =>
      (s, out.2 ++ [.consoleError "Error fetching prompts:", .alert msgRetrieveFailed])

/-! ## Observations on an event log -/

/-- The messages shown to the user with `alert`, in order. -/
def alerts (evs : List Event) : List String :=
  evs.filterMap fun
    | .alert m => some m
    | _ => none

/-- Calls on the ledger handle (and the wait for a transaction it returned). -/
def Event.isLedgerCall : Event → Bool
  | .addPrompt _ _ _ => true
  | .txWait _ _ => true
  | .getPromptCount _ _ _ => true
  | .getPrompt _ _ _ _ => true
  | _ => false

/-- Calls on the storage service: the SDK upload and the gateway request. -/
def Event.isStorageCall : Event → Bool
  | .upload _ _ _ => true
  | .fetch _ _ => true
  | .json _ _ => true
  | _ => false

/-- Calls on the wallet provider. -/
def Event.isWalletCall : Event → Bool
  | .requestAccounts _ _ => true
  | .getSigner _ _ => true
  | _ => false

/-- Any call that leaves the page. -/
def Event.isNetworkCall (e : Event) : Bool :=
  e.isLedgerCall || e.isStorageCall || e.isWalletCall

/-- The ledger reads `getPrompt(user, index)` of a log, in order. -/
def ledgerReads (evs : List Event) : List (Contract × Option Address × Nat) :=
  evs.filterMap fun
    | .getPrompt c user i _ => some (c, user, i)
    | _ => none

/-- The URLs requested from the gateway, in order. -/
def storageFetches (evs : List Event) : List String :=
  evs.filterMap fun
    | .fetch url _ => some url
    | _ => none

/-- The count reads `getPromptCount(user)` of a log, in order. -/
def countReads (evs : List Event) : List (Contract × Option Address) :=
  evs.filterMap fun
    | .getPromptCount c user _ => some (c, user)
    | _ => none

/-- The ledger writes `addPrompt(cid)` of a log, in order. -/
def ledgerWrites (evs : List Event) : List (Contract × Option Cid) :=
  evs.filterMap fun
    | .addPrompt c cid _ => some (c, cid)
    | _ => none

/-- The files handed to `lighthouse.upload`, in order. -/
def uploads (evs : List Event) : List File :=
  evs.filterMap fun
    | .upload f _ _ => some f
    | _ => none

/-- A ledger read that was rejected. -/
def Event.isFailedRead : Event → Bool
  | .getPrompt _ _ _ (.error _) => true
  | _ => false

/-- A ledger write step that was rejected: `addPrompt` or the wait for it. -/
def Event.isFailedWrite : Event → Bool
  | .addPrompt _ _ (.error _) => true
  | .txWait _ (.error _) => true
  | _ => false

/-- An upload that was rejected, or that resolved to a response without `data`,
so that reading `response.data.Hash` throws. -/
def Event.isFailedUpload : Event → Bool
  | .upload _ _ (.error _) => true
  | .upload _ _ (.ok .noData) => true
  | _ => false

/-- An upload whose response carries no content identifier under `data.Hash`:
it was rejected, it has no `data`, or its `data` has no `Hash`. -/
def Event.isUploadWithoutHash : Event → Bool
  | .upload _ _ (.error _) => true
  | .upload _ _ (.ok .noData) => true
  | .upload _ _ (.ok (.data none)) => true
  | _ => false

/-- The two kinds of call the retrieval loop makes, without the gateway's answer. -/
inductive Wire where
  | read (user : Option Address) (index : Nat) (r : Res Cid)
  | fetch (url : String)
  deriving DecidableEq, Repr

/-- The ledger reads and gateway requests of a log, in the order they were issued. -/
def wire (evs : List Event) : List Wire :=
  evs.filterMap fun
    | .getPrompt _ user i r => some (.read user i r)
    | .fetch url _ => some (.fetch url)
    | _ => none

/-- The strictly alternating call sequence read `i`, fetch of its identifier,
read `i + 1`, fetch of its identifier, and so on. -/
def alternating (user : Option Address) : Nat → List Cid → List Wire
  | _, [] => []
  | i, cid :: cids => .read user i (.ok cid) :: .fetch (gatewayUrl cid) :: alternating user (i + 1) cids

/-- What happened in one completed iteration of the retrieval loop, after the
ledger returned `cid`. -/
inductive Fetched where
  | fetchFailed (cid : Cid) (err : Err)
  | jsonFailed (cid : Cid) (resp : Response) (err : Err)
  | payload (cid : Cid) (resp : Response) (data : Json)
  deriving DecidableEq, Repr

/-- The identifier the iteration was about. -/
def Fetched.cid : Fetched → Cid
  | .fetchFailed cid _ => cid
  | .jsonFailed cid _ _ => cid
  | .payload cid _ _ => cid

/-- The entry the iteration contributes: `null` when the request or the decoding
failed, the decoded payload otherwise. -/
def Fetched.value : Fetched → Json
  | .fetchFailed _ _ => .null
  | .jsonFailed _ _ _ => .null
  | .payload _ _ data => data

/-- Whether the request or the decoding failed. -/
def Fetched.failed : Fetched → Bool
  | .payload _ _ _ => false
  | _ => true

/-- The events of one completed iteration with loop variable `i`. -/
def Fetched.events (c : Contract) (user : Option Address) (i : Nat) : Fetched → List Event
  | .fetchFailed cid err =>
    [.getPrompt c user i (.ok cid), .fetch (gatewayUrl cid) (.error err),
     .consoleError "Error fetching prompt from Lighthouse:"]
  | .jsonFailed cid resp err =>
    [.getPrompt c user i (.ok cid), .fetch (gatewayUrl cid) (.ok resp), .json resp (.error err),
     .consoleError "Error fetching prompt from Lighthouse:"]
  | .payload cid resp data =>
    [.getPrompt c user i (.ok cid), .fetch (gatewayUrl cid) (.ok resp), .json resp (.ok data)]

/-- The events of consecutive completed iterations starting at loop variable `i`. -/
def iterations (c : Contract) (user : Option Address) : Nat → List Fetched → List Event
  | _, [] => []
  | i, f :: fs => f.events c user i ++ iterations c user (i + 1) fs

/-- What the `catch` of the submission flow emits (lines 107-108). -/
def submitFailed : List Event :=
  [.consoleError "Error uploading to Lighthouse or storing in contract:", .alert msgSubmitFailed]

/-- The log of a submission up to and including line 97: the upload, the progress
lines and the line with the content identifier. -/
def uploadedLog (file : File) (key : Option String) (ps : List ProgressData)
    (cid : Option Cid) : List Event :=
  Event.upload file key (.ok (.data cid)) :: progressLog ps ++ [.consoleLog (.uploadedCid cid)]

/-! ## The ledger behind the handle -/

/-- Modelled from the spec: the value of a hexadecimal digit, in either case. -/
def hexDigit (ch : Char) : Option Nat :=
  if 48 ≤ ch.toNat ∧ ch.toNat ≤ 57 then some (ch.toNat - 48)
  else if 97 ≤ ch.toNat ∧ ch.toNat ≤ 102 then some (ch.toNat - 87)
  else if 65 ≤ ch.toNat ∧ ch.toNat ≤ 70 then some (ch.toNat - 55)
  else none

/-- Modelled from the spec: the number written by a list of hexadecimal digits,
continuing from `acc`. -/
def hexValue : List Char → Nat → Option Nat
  | [], acc => some acc
  | ch :: rest, acc =>
    match hexDigit ch with
    | some d => hexValue rest (16 * acc + d)
    | none => none

/-- Modelled from the spec: the 20-byte account identifier an address string
denotes, `0x` followed by forty hexadecimal digits whose case does not matter.
Two spellings of one account have the same identifier. -/
def accountId (a : Address) : Option Nat :=
  match a.data with
  | c0 :: c1 :: digits =>
    if c0.toNat = 48 ∧ c1.toNat = 120 ∧ digits.length = 40 then hexValue digits 0 else none
  | _ => none

/-- Modelled from the spec: the ledger contract, of which `src/` holds only the ABI
(lines 8-33).  It keeps, per account identifier, an append-only sequence of content
identifiers; the record count of an account is the length of its sequence. -/
structure Ledger where
  records : Nat → List Cid

/-- Modelled from the spec: a ledger without records. -/
def Ledger.empty : Ledger :=
  { records := fun _ => [] }

/-- Modelled from the spec: `addPrompt(cid)` sent by the account `caller` appends
`cid` to the caller's records, advancing the caller's count by one. -/
def Ledger.addPrompt (L : Ledger) (caller : Nat) (cid : Cid) : Ledger :=
  { records := fun a => if a = caller then L.records a ++ [cid] else L.records a }

/-- Modelled from the spec: `getPromptCount(user)`. -/
def Ledger.getPromptCount (L : Ledger) (user : Nat) : Nat :=
  (L.records user).length

/-- Modelled from the spec: `getPrompt(user, index)`, which reverts outside
`[0, count)`. -/
def Ledger.getPrompt (L : Ledger) (user : Nat) (index : Nat) : Option Cid :=
  (L.records user)[index]?

/-- Modelled from the spec: the ledger together with the writes that were sent and
are not confirmed yet, each with its transaction and its caller. -/
structure Chain where
  ledger : Ledger
  pending : List (Tx × Nat × Cid)

/-- Modelled from the spec: the records of the pending writes of transaction `tx`
are committed, in the order they were sent. -/
def Chain.confirm (tx : Tx) : List (Tx × Nat × Cid) → Ledger → Ledger
  | [], L => L
  | (tx', caller, cid) :: rest, L =>
    if tx' = tx then Chain.confirm tx rest (L.addPrompt caller cid) else Chain.confirm tx rest L

/-- Modelled from the spec: the effect of one logged event.  An accepted
`addPrompt` with a string argument becomes a pending write of the account of the
signer of the handle it was sent through.  A write is committed when the wait for
its transaction succeeds, and is dropped when that wait is rejected: no record is
committed unless the ledger step itself succeeded.  Nothing else changes the
ledger. -/
def Chain.apply (st : Chain) : Event → Chain
  | .addPrompt c (some cid) (.ok tx) =>
    match accountId c.signer.address with
    | some caller => { st with pending := st.pending ++ [(tx, caller, cid)] }
    | none => st
  | .txWait tx (.ok _) =>
    { ledger := Chain.confirm tx st.pending st.ledger
      pending := st.pending.filter fun w => decide (w.1 ≠ tx) }
  | .txWait tx (.error _) =>
    { st with pending := st.pending.filter fun w => decide (w.1 ≠ tx) }
  | _ => st

/-- Modelled from the spec: the ledger after the events of a log, starting from `L`
with nothing pending. -/
def ledgerAfter (L : Ledger) (log : List Event) : Ledger :=
  (log.foldl Chain.apply { ledger := L, pending := [] }).ledger

/-- Modelled from the spec: the record count the ledger holds for the account an
address string denotes, `0` for a string that denotes no account. -/
def ledgerCount (L : Ledger) (a : Address) : Nat :=
  match accountId a with
  | some user => L.getPromptCount user
  | none => 0

/-- Modelled from the spec: collaborators whose handle talks to the ledger, started in
state `L`: `addPrompt` of a string is accepted and confirmed, the two reads answer
from the ledger as the log so far has left it, and `enc` is the JavaScript value
the handle hands out for a `uint256`.  Wallet and storage are those of `base`. -/
def ledgerWorld (L : Ledger) (enc : Nat → CountValue) (base : World) : World :=
  { base with
    addPrompt := fun _ _ cid =>
      match cid with
      | some _ => .ok { hash := "0x7A" }
      | none => .error { msg := "invalid string value" }
    wait := fun _ _ => .ok ()
    getPromptCount := fun log _ user =>
      match user.bind accountId with
      | some a => .ok (enc ((ledgerAfter L log).getPromptCount a))
      | none => .error { msg := "invalid address" }
    getPrompt := fun log _ user i =>
      match user.bind accountId with
      | some a =>
        match (ledgerAfter L log).getPrompt a i with
        | some cid => .ok cid
        | none => .error { msg := "call revert" }
      | none => .error { msg := "invalid address" } }

/-- A `uint256` handed out as an object with a `toNumber` method that throws
outside the safe integer range (the `BigNumber` the comments on lines 114 and 117
expect). -/
def asBigNumber (n : Nat) : CountValue :=
  .withToNumber (if n ≤ 9007199254740991 then .ok n else .error { msg := "overflow" })

/-- A `uint256` handed out as a native `bigint`, as a handle built through
`ethers.BrowserProvider` (line 51) does: it has no `toNumber` member, and `0n` is
falsy. -/
def asBigInt (n : Nat) : CountValue :=
  if n = 0 then .falsy else .noToNumber

/-! ## Sample collaborators -/

/-- Identifiers the sample ledger holds at indices 0, 1, 2, ... -/
def sampleCid : Nat → Cid
  | 0 => "QmA"
  | 1 => "QmB"
  | _ => "QmC"

/-- The record the sample gateway serves for a response. -/
def sampleRecord (id : Nat) : Json :=
  match id with
  | 0 => .record "first" "the first prompt" "ML" "alpha"
  | 1 => .record "second" "the second prompt" "Blockchain" "beta"
  | _ => .record "third" "the third prompt" "Data Science" "gamma"

/-- A wallet, ledger and storage service in which every call succeeds, except that
the ledger read at index `failRead` is rejected and the gateway request for the
identifier `failFetch` is rejected. -/
def sampleWorld (failRead : Option Nat) (failFetch : Option Cid) : World :=
  { ethereum := some { id := 1 }
    contractAddress := some "0xC0DE"
    apiKey := some "key"
    newProvider := fun _ _ => none
    send := fun _ _ => .ok ["0xA11CE", "0xB0B"]
    getSigner := fun _ _ => .ok { address := "0xA11CE" }
    newContract := fun _ _ _ => none
    upload := fun _ file _ => ([{ uploaded := 1, total := 2 }, { uploaded := 2, total := 2 }],
      .ok (.data (some ("Qm" ++ file.name))))
    addPrompt := fun _ _ _ => .ok { hash := "0x7A" }
    wait := fun _ _ => .ok ()
    getPromptCount := fun _ _ _ => .ok (.withToNumber (.ok 3))
    getPrompt := fun _ _ _ i =>
      if failRead = some i then .error { msg := "call revert" } else .ok (sampleCid i)
    fetch := fun _ url =>
      if failFetch.map gatewayUrl = some url then .error { msg := "network error" }
      else if url = gatewayUrl "QmA" then .ok { id := 0 }
      else if url = gatewayUrl "QmB" then .ok { id := 1 }
      else .ok { id := 2 }
    json := fun _ resp => .ok (sampleRecord resp.id) }

/-- The handle the sample wallet leads to. -/
def sampleContract : Contract :=
  { target := some "0xC0DE", signer := { address := "0xA11CE" } }

/-- A connected session that knows of three records and has not fetched them. -/
def sampleView : View :=
  { account := some "0xA11CE"
    contract := some sampleContract
    provider := some { ethereum := { id := 1 } }
    selectedFile := none
    promptCount := 3
    prompts := []
    metadata := [("name", ""), ("description", ""), ("category", "ML")] }

/-- The sample collaborators without a wallet extension. -/
def noWalletWorld : World :=
  { sampleWorld none none with ethereum := none }

/-- The sample collaborators with a wallet whose user rejects the account request. -/
def rejectingWalletWorld : World :=
  { sampleWorld none none with
    send := fun _ _ => .error { msg := "User rejected the request." } }

/-- The sample collaborators with a storage SDK whose response has `data` but no
`Hash` in it. -/
def noHashWorld : World :=
  { sampleWorld none none with upload := fun _ _ _ => ([], .ok (.data none)) }

/-- The sample collaborators with a storage SDK whose response has no `data`. -/
def noDataWorld : World :=
  { sampleWorld none none with upload := fun _ _ _ => ([], .ok .noData) }

/-- The sample collaborators with a ledger handle that rejects `addPrompt`. -/
def rejectingLedgerWorld : World :=
  { sampleWorld none none with
    addPrompt := fun _ _ _ => .error { msg := "user rejected transaction" } }

/-- The sample collaborators with a storage SDK that rejects the upload. -/
def rejectingStorageWorld : World :=
  { sampleWorld none none with
    upload := fun _ _ _ => ([{ uploaded := 1, total := 2 }], .error { msg := "upload failed" }) }

/-- A connected session on an empty ledger with a file picked. -/
def submitView : View :=
  { sampleView with selectedFile := some { name := "prompt.json" }, promptCount := 0 }

/-- A page that never connected, with a file picked. -/
def unconnectedView : View :=
  { View.initial with selectedFile := some { name := "prompt.json" } }

/-- A session left by an earlier connection of another account. -/
def staleView : View :=
  { sampleView with
    account := some "0x0DD"
    contract := some { target := some "0xC0DE", signer := { address := "0x0DD" } }
    promptCount := 7 }

/-- The account of the sample wallet as `eth_requestAccounts` spells it. -/
def walletAddress : Address := "0xa11ce0000000000000000000000000000000beef"

/-- The same account as the signer spells it, in mixed case. -/
def signerAddress : Address := "0xA11cE0000000000000000000000000000000bEEf"

/-- A wallet that hands out one account, lower-case in the account list and
mixed-case in the signer, with the storage of the sample collaborators. -/
def walletBase : World :=
  { sampleWorld none none with
    send := fun _ _ => .ok [walletAddress]
    getSigner := fun _ _ => .ok { address := signerAddress } }

/-- The empty ledger behind a handle that hands counts out as native `bigint`s. -/
def bigintWorld : World :=
  ledgerWorld Ledger.empty asBigInt walletBase

/-- The empty ledger behind a handle that hands counts out as `BigNumber` objects. -/
def bigNumberWorld : World :=
  ledgerWorld Ledger.empty asBigNumber walletBase

/-- The file picked in the sample submissions. -/
def sampleFile : File := { name := "prompt.json" }

/-- The handle the page load builds from the sample wallet. -/
def walletContract : Contract :=
  { target := some "0xC0DE", signer := { address := signerAddress } }

/-! # Theorems -/

/-! ## The retrieval loop -/

theorem fetchPromptFromLighthouse_cases (w : World) (cid : Cid) (h : List Event)
    (c : Contract) (user : Option Address) (i : Nat) :
    ∃ f : Fetched, f.cid = cid ∧
      (fetchPromptFromLighthouse w cid h).1 = f.value ∧
      Event.getPrompt c user i (.ok cid) :: (fetchPromptFromLighthouse w cid h).2
        = f.events c user i := by
  unfold fetchPromptFromLighthouse
  cases h1 : w.fetch h (gatewayUrl cid) with
  | error err => exact ⟨.fetchFailed cid err, rfl, rfl, rfl⟩
  | ok resp =>
    cases h2 : w.json (h ++ [Event.fetch (gatewayUrl cid) (.ok resp)]) resp with
    | error err => exact ⟨.jsonFailed cid resp err, rfl, by simp [Fetched.value, h2], by simp [Fetched.events, h2]⟩
    | ok data => exact ⟨.payload cid resp data, rfl, by simp [Fetched.value, h2], by simp [Fetched.events, h2]⟩

/-- The loop either completes all its iterations and returns the accumulated
entries, or completes some of them and stops at the first rejected ledger read. -/
theorem retrieveLoop_cases (w : World) (c : Contract) (user : Option Address) :
    ∀ (n i : Nat) (acc : List Json) (h : List Event),
      ∃ fs : List Fetched,
        (fs.length = n ∧
          retrieveLoop w c user n i acc h
            = (.ok (acc ++ fs.map Fetched.value), iterations c user i fs)) ∨
        (fs.length < n ∧ ∃ err,
          retrieveLoop w c user n i acc h
            = (.error err,
               iterations c user i fs ++ [.getPrompt c user (i + fs.length) (.error err)])) := by
  intro n
  induction n with
  | zero => intro i acc h; exact ⟨[], Or.inl ⟨rfl, by simp [retrieveLoop, iterations]⟩⟩
  | succ n ih =>
    intro i acc h
    cases hr : w.getPrompt h c user i with
    | error err =>
      exact ⟨[], Or.inr ⟨by simp, err, by simp [retrieveLoop, hr, iterations]⟩⟩
    | ok cid =>
      obtain ⟨f, _, hv, he⟩ :=
        fetchPromptFromLighthouse_cases w cid (h ++ [Event.getPrompt c user i (.ok cid)]) c user i
      obtain ⟨fs, hfs⟩ := ih (i + 1) (acc ++ [f.value])
        (h ++ Event.getPrompt c user i (.ok cid)
          :: (fetchPromptFromLighthouse w cid (h ++ [Event.getPrompt c user i (.ok cid)])).2)
      refine ⟨f :: fs, ?_⟩
      rcases hfs with ⟨hl, heq⟩ | ⟨hl, err, heq⟩
      · left
        refine ⟨by simp [hl], ?_⟩
        simp only [retrieveLoop, hr, hv, heq, iterations, ← he]
        simp
      · right
        refine ⟨by simpa using hl, err, ?_⟩
        simp only [retrieveLoop, hr, hv, heq, iterations, ← he]
        simp [Nat.add_assoc, Nat.add_comm 1]

/-! ### Observations on completed iterations -/

theorem ledgerReads_append (xs ys : List Event) :
    ledgerReads (xs ++ ys) = ledgerReads xs ++ ledgerReads ys := by
  simp [ledgerReads]

theorem storageFetches_append (xs ys : List Event) :
    storageFetches (xs ++ ys) = storageFetches xs ++ storageFetches ys := by
  simp [storageFetches]

theorem wire_append (xs ys : List Event) : wire (xs ++ ys) = wire xs ++ wire ys := by
  simp [wire]

theorem alerts_append (xs ys : List Event) : alerts (xs ++ ys) = alerts xs ++ alerts ys := by
  simp [alerts]

theorem ledgerReads_iterations (c : Contract) (user : Option Address) (fs : List Fetched) :
    ∀ i, ledgerReads (iterations c user i fs)
      = (List.range' i fs.length).map fun j => (c, user, j) := by
  induction fs with
  | nil => intro i; simp [iterations, ledgerReads]
  | cons f fs ih =>
    intro i
    rw [iterations, ledgerReads_append, ih (i + 1)]
    cases f <;> simp [Fetched.events, ledgerReads, List.range']

theorem storageFetches_iterations (c : Contract) (user : Option Address) (fs : List Fetched) :
    ∀ i, storageFetches (iterations c user i fs) = fs.map fun f => gatewayUrl f.cid := by
  induction fs with
  | nil => intro i; simp [iterations, storageFetches]
  | cons f fs ih =>
    intro i
    rw [iterations, storageFetches_append, ih (i + 1)]
    cases f <;> simp [Fetched.events, storageFetches, Fetched.cid]

theorem wire_iterations (c : Contract) (user : Option Address) (fs : List Fetched) :
    ∀ i, wire (iterations c user i fs) = alternating user i (fs.map Fetched.cid) := by
  induction fs with
  | nil => intro i; simp [iterations, wire, alternating]
  | cons f fs ih =>
    intro i
    rw [iterations, wire_append, ih (i + 1)]
    cases f <;> simp [Fetched.events, wire, Fetched.cid, alternating]

theorem alerts_iterations (c : Contract) (user : Option Address) (fs : List Fetched) :
    ∀ i, alerts (iterations c user i fs) = [] := by
  induction fs with
  | nil => intro i; simp [iterations, alerts]
  | cons f fs ih =>
    intro i
    rw [iterations, alerts_append, ih (i + 1)]
    cases f <;> simp [Fetched.events, alerts]

theorem isFailedRead_iterations (c : Contract) (user : Option Address) (fs : List Fetched) :
    ∀ i, ∀ e ∈ iterations c user i fs, e.isFailedRead = false := by
  induction fs with
  | nil => intro i e he; simp [iterations] at he
  | cons f fs ih =>
    intro i e he
    rw [iterations, List.mem_append] at he
    rcases he with he | he
    · cases f <;> simp [Fetched.events] at he <;> rcases he with rfl | rfl | rfl | rfl <;> rfl
    · exact ih (i + 1) e he

/-- The two ways `fetchUserPrompts` can end when a ledger handle exists: every
iteration completed and the entries are stored, or a ledger read was rejected and
the view is left as it was. -/
theorem fetchUserPrompts_cases (w : World) (s : View) (h : List Event) (c : Contract)
    (hc : s.contract = some c) :
    ∃ fs : List Fetched,
      (fs.length = s.promptCount ∧
        fetchUserPrompts w s h
          = ({ s with prompts := fs.map Fetched.value }, iterations c s.account 0 fs)) ∨
      (fs.length < s.promptCount ∧ ∃ err,
        fetchUserPrompts w s h
          = (s, iterations c s.account 0 fs
                ++ [.getPrompt c s.account fs.length (.error err),
                    .consoleError "Error fetching prompts:", .alert msgRetrieveFailed])) := by
  obtain ⟨fs, hfs⟩ := retrieveLoop_cases w c s.account s.promptCount 0 [] h
  refine ⟨fs, ?_⟩
  rcases hfs with ⟨hl, heq⟩ | ⟨hl, err, heq⟩
  · left
    refine ⟨hl, ?_⟩
    simp [fetchUserPrompts, hc, heq]
  · right
    refine ⟨hl, err, ?_⟩
    simp [fetchUserPrompts, hc, heq]

/-- C1 (as amended).  With a ledger handle and `promptCount = count`, the retrieval
flow issues at most `count` ledger reads and at most `count` gateway requests; the
reads are `getPrompt(account, i)` for `i = 0, 1, ...` in increasing order without
gaps, and they are exactly `count` when no read is rejected; the calls alternate
read 0, request for its identifier, read 1, request for its identifier, ..., the
sequence ending after a request or with the one rejected read. -/
theorem fetchUserPrompts_calls (w : World) (s : View) (h : List Event) (c : Contract)
    (hc : s.contract = some c) :
    (ledgerReads (fetchUserPrompts w s h).2).length ≤ s.promptCount ∧
    (storageFetches (fetchUserPrompts w s h).2).length ≤ s.promptCount ∧
    ledgerReads (fetchUserPrompts w s h).2
      = (List.range (ledgerReads (fetchUserPrompts w s h).2).length).map
          (fun i => (c, s.account, i)) ∧
    ((∀ e ∈ (fetchUserPrompts w s h).2, e.isFailedRead = false) →
      (ledgerReads (fetchUserPrompts w s h).2).length = s.promptCount ∧
      (storageFetches (fetchUserPrompts w s h).2).length = s.promptCount) ∧
    ∃ cids : List Cid,
      storageFetches (fetchUserPrompts w s h).2 = cids.map gatewayUrl ∧
      (wire (fetchUserPrompts w s h).2 = alternating s.account 0 cids ∨
        ∃ err, wire (fetchUserPrompts w s h).2
          = alternating s.account 0 cids ++ [.read s.account cids.length (.error err)]) := by
  obtain ⟨fs, ⟨hl, heq⟩ | ⟨hl, err, heq⟩⟩ := fetchUserPrompts_cases w s h c hc
  · rw [heq]
    simp only [ledgerReads_iterations, storageFetches_iterations, wire_iterations]
    refine ⟨by simp [hl], by simp [hl], by simp [← List.range_eq_range'],
      fun _ => ⟨by simp [hl], by simp [hl]⟩, fs.map Fetched.cid, by simp, Or.inl rfl⟩
  · rw [heq]
    simp only [ledgerReads_append, storageFetches_append, wire_append, ledgerReads_iterations,
      storageFetches_iterations, wire_iterations, ← List.range_eq_range']
    have e1 : ledgerReads [Event.getPrompt c s.account fs.length (.error err),
        .consoleError "Error fetching prompts:", .alert msgRetrieveFailed]
        = [(c, s.account, fs.length)] := rfl
    have e2 : storageFetches [Event.getPrompt c s.account fs.length (.error err),
        .consoleError "Error fetching prompts:", .alert msgRetrieveFailed] = [] := rfl
    have e3 : wire [Event.getPrompt c s.account fs.length (.error err),
        .consoleError "Error fetching prompts:", .alert msgRetrieveFailed]
        = [.read s.account fs.length (.error err)] := rfl
    rw [e1, e2, e3]
    refine ⟨by simp; omega, by simp; omega, by simp [List.range_succ], ?_,
      fs.map Fetched.cid, by simp, Or.inr ⟨err, by simp⟩⟩
    intro hno
    have := hno (Event.getPrompt c s.account fs.length (.error err)) (by simp)
    simp [Event.isFailedRead] at this

/-- C2.  With a ledger handle, when no ledger read of the run is rejected, the flow
stores a sequence of exactly `promptCount` entries in ledger index order: the run
consists of `promptCount` completed iterations, and entry `i` is `null` when the
gateway request or the JSON decoding of iteration `i` failed and is the decoded
payload of iteration `i` otherwise.  Nothing else in the view changes. -/
theorem fetchUserPrompts_placeholders (w : World) (s : View) (h : List Event) (c : Contract)
    (hc : s.contract = some c)
    (hreads : ∀ e ∈ (fetchUserPrompts w s h).2, e.isFailedRead = false) :
    ∃ fs : List Fetched,
      fs.length = s.promptCount ∧
      (fetchUserPrompts w s h).2 = iterations c s.account 0 fs ∧
      (fetchUserPrompts w s h).1 = { s with prompts := fs.map Fetched.value } ∧
      (fetchUserPrompts w s h).1.prompts.length = s.promptCount ∧
      ∀ (i : Nat) (f : Fetched), fs[i]? = some f →
        (fetchUserPrompts w s h).1.prompts[i]? = some f.value ∧
        (f.failed = true → f.value = .null) ∧
        (∀ cid resp data, f = .payload cid resp data → f.value = data) := by
  obtain ⟨fs, ⟨hl, heq⟩ | ⟨hl, err, heq⟩⟩ := fetchUserPrompts_cases w s h c hc
  · refine ⟨fs, hl, by rw [heq], by rw [heq], by rw [heq]; simp [hl], ?_⟩
    intro i f hf
    refine ⟨by rw [heq]; simp [hf], ?_, ?_⟩
    · cases f <;> simp [Fetched.failed, Fetched.value]
    · rintro cid resp data rfl; rfl
  · exfalso
    have := hreads (Event.getPrompt c s.account fs.length (.error err)) (by rw [heq]; simp)
    simp [Event.isFailedRead] at this

/-- C9.  With a ledger handle, if the ledger read at index `k` is rejected in a run
of the retrieval flow, then `k < promptCount`, the run consists of `k` completed
iterations followed by that read, the error log and the failure alert: the reads
issued are exactly those of indices `0..k`, only `k` gateway requests were made
(none for index `k` or above), and the view, `prompts` included, is what it was
before.  A run without a rejected read, whatever its gateway failures, issues all
`promptCount` reads and shows no alert. -/
theorem fetchUserPrompts_read_failure_aborts (w : World) (s : View) (h : List Event)
    (c : Contract) (hc : s.contract = some c) :
    (∀ k err, Event.getPrompt c s.account k (.error err) ∈ (fetchUserPrompts w s h).2 →
      k < s.promptCount ∧
      (fetchUserPrompts w s h).1 = s ∧
      alerts (fetchUserPrompts w s h).2 = [msgRetrieveFailed] ∧
      ledgerReads (fetchUserPrompts w s h).2
        = (List.range (k + 1)).map (fun i => (c, s.account, i)) ∧
      (storageFetches (fetchUserPrompts w s h).2).length = k ∧
      ∃ fs : List Fetched, fs.length = k ∧
        (fetchUserPrompts w s h).2
          = iterations c s.account 0 fs
            ++ [.getPrompt c s.account k (.error err),
                .consoleError "Error fetching prompts:", .alert msgRetrieveFailed]) ∧
    ((∀ e ∈ (fetchUserPrompts w s h).2, e.isFailedRead = false) →
      ledgerReads (fetchUserPrompts w s h).2
        = (List.range s.promptCount).map (fun i => (c, s.account, i)) ∧
      (fetchUserPrompts w s h).1.prompts.length = s.promptCount ∧
      alerts (fetchUserPrompts w s h).2 = []) := by
  obtain ⟨fs, ⟨hl, heq⟩ | ⟨hl, err', heq⟩⟩ := fetchUserPrompts_cases w s h c hc
  · rw [heq]
    constructor
    · intro k err hmem
      have := isFailedRead_iterations c s.account fs 0 _ hmem
      simp [Event.isFailedRead] at this
    · intro _
      simp [ledgerReads_iterations, alerts_iterations, hl, ← List.range_eq_range']
  · rw [heq]
    constructor
    · intro k err hmem
      rw [List.mem_append] at hmem
      have hk : k = fs.length ∧ err = err' := by
        rcases hmem with hmem | hmem
        · have := isFailedRead_iterations c s.account fs 0 _ hmem
          simp [Event.isFailedRead] at this
        · simpa using hmem
      obtain ⟨rfl, rfl⟩ := hk
      refine ⟨hl, rfl, ?_, ?_, ?_, fs, rfl, rfl⟩
      · rw [alerts_append, alerts_iterations]; rfl
      · rw [ledgerReads_append, ledgerReads_iterations, List.range_succ, List.map_append,
          ← List.range_eq_range']
        rfl
      · rw [storageFetches_append, storageFetches_iterations]
        simp [storageFetches]
    · intro hno
      have := hno (Event.getPrompt c s.account fs.length (.error err')) (by simp)
      simp [Event.isFailedRead] at this

/-! ## The count read -/

/-- The count read logs its one ledger call, possibly followed by an error line,
and changes nothing in the view but `promptCount`. -/
theorem fetchPromptCount_cases (w : World) (c : Contract) (user : Option Address)
    (s : View) (h : List Event) :
    ∃ (n : Nat) (tail : List Event),
      fetchPromptCount w c user s h
        = ({ s with promptCount := n },
           Event.getPromptCount c user (w.getPromptCount h c user) :: tail) ∧
      (tail = [] ∨ ∃ msg, tail = [.consoleError msg]) := by
  unfold fetchPromptCount
  cases hr : w.getPromptCount h c user with
  | error err => exact ⟨s.promptCount, _, rfl, Or.inr ⟨_, rfl⟩⟩
  | ok v =>
    cases v with
    | falsy => exact ⟨s.promptCount, _, rfl, Or.inr ⟨_, rfl⟩⟩
    | noToNumber => exact ⟨s.promptCount, _, rfl, Or.inr ⟨_, rfl⟩⟩
    | withToNumber r =>
      cases r with
      | ok n => exact ⟨n, _, rfl, Or.inl rfl⟩
      | error err => exact ⟨s.promptCount, _, rfl, Or.inr ⟨_, rfl⟩⟩

/-! ## The submission flow -/

/-- Line 84: without a selected file the handler returns after the alert. -/
theorem uploadToLighthouse_of_no_file (w : World) (s : View) (h : List Event)
    (hf : s.selectedFile = none) :
    uploadToLighthouse w s h = (s, [.alert msgSelectFile]) := by
  simp [uploadToLighthouse, hf]

/-- C3.  With no file selected, `uploadToLighthouse` only shows the validation
message: the view is unchanged, the one event is the alert, and no call is made
to the storage service, the ledger or the wallet, whether a ledger handle exists
or not. -/
theorem uploadToLighthouse_no_file (w : World) (s : View) (h : List Event)
    (hf : s.selectedFile = none) :
    uploadToLighthouse w s h = (s, [.alert msgSelectFile]) ∧
    alerts (uploadToLighthouse w s h).2 = [msgSelectFile] ∧
    uploads (uploadToLighthouse w s h).2 = [] ∧
    ledgerWrites (uploadToLighthouse w s h).2 = [] ∧
    countReads (uploadToLighthouse w s h).2 = [] ∧
    ∀ e ∈ (uploadToLighthouse w s h).2, e.isNetworkCall = false := by
  rw [uploadToLighthouse_of_no_file w s h hf]
  refine ⟨rfl, rfl, rfl, rfl, rfl, ?_⟩
  intro e he
  simp at he
  subst he
  rfl

theorem alerts_progressLog (ps : List ProgressData) : alerts (progressLog ps) = [] := by
  induction ps with
  | nil => rfl
  | cons p ps ih => simp [progressLog, alerts]

theorem countReads_progressLog (ps : List ProgressData) : countReads (progressLog ps) = [] := by
  induction ps with
  | nil => rfl
  | cons p ps ih => simp [progressLog, countReads]

theorem ledgerWrites_progressLog (ps : List ProgressData) :
    ledgerWrites (progressLog ps) = [] := by
  induction ps with
  | nil => rfl
  | cons p ps ih => simp [progressLog, ledgerWrites]

theorem uploads_progressLog (ps : List ProgressData) : uploads (progressLog ps) = [] := by
  induction ps with
  | nil => rfl
  | cons p ps ih => simp [progressLog, uploads]

theorem mem_progressLog (ps : List ProgressData) (e : Event) (he : e ∈ progressLog ps) :
    ∃ p, e = .consoleLog (.uploadProgress p) := by
  simp only [progressLog, List.mem_map] at he
  obtain ⟨p, _, rfl⟩ := he
  exact ⟨p, rfl⟩

theorem countReads_append (xs ys : List Event) :
    countReads (xs ++ ys) = countReads xs ++ countReads ys := by
  simp [countReads]

theorem ledgerWrites_append (xs ys : List Event) :
    ledgerWrites (xs ++ ys) = ledgerWrites xs ++ ledgerWrites ys := by
  simp [ledgerWrites]

theorem uploads_append (xs ys : List Event) : uploads (xs ++ ys) = uploads xs ++ uploads ys := by
  simp [uploads]

/-- The ways a submission with a selected file can go: the upload step fails; or
it yields `data.Hash` and then there is no handle, or `addPrompt` is rejected, or
the wait is rejected, or both succeed and the count is read again. -/
theorem uploadToLighthouse_cases (w : World) (s : View) (h : List Event) (file : File)
    (hf : s.selectedFile = some file) :
    ∃ (ps : List ProgressData) (r : Res UploadResponse),
      w.upload h file w.apiKey = (ps, r) ∧
      ((((∃ err, r = .error err) ∨ r = .ok .noData) ∧
        uploadToLighthouse w s h
          = (s, Event.upload file w.apiKey r :: progressLog ps ++ submitFailed)) ∨
       (∃ cid, r = .ok (.data cid) ∧
        ((s.contract = none ∧
          uploadToLighthouse w s h = (s, uploadedLog file w.apiKey ps cid)) ∨
         (∃ c, s.contract = some c ∧
          ((∃ err, uploadToLighthouse w s h
              = (s, uploadedLog file w.apiKey ps cid
                    ++ .addPrompt c cid (.error err) :: submitFailed)) ∨
           (∃ tx err, uploadToLighthouse w s h
              = (s, uploadedLog file w.apiKey ps cid
                    ++ .addPrompt c cid (.ok tx) :: .txWait tx (.error err) :: submitFailed)) ∨
           (∃ tx, uploadToLighthouse w s h
              = ((fetchPromptCount w c s.account s
                    (h ++ (uploadedLog file w.apiKey ps cid
                      ++ [.addPrompt c cid (.ok tx), .txWait tx (.ok ()), .alert msgStored]))).1,
                 uploadedLog file w.apiKey ps cid
                    ++ [.addPrompt c cid (.ok tx), .txWait tx (.ok ()), .alert msgStored]
                    ++ (fetchPromptCount w c s.account s
                    (h ++ (uploadedLog file w.apiKey ps cid
                      ++ [.addPrompt c cid (.ok tx), .txWait tx (.ok ()), .alert msgStored]))).2
                ))))))) := by
  refine ⟨(w.upload h file w.apiKey).1, (w.upload h file w.apiKey).2, rfl, ?_⟩
  unfold uploadToLighthouse
  simp only [hf]
  cases hup : (w.upload h file w.apiKey).2 with
  | error err => left; exact ⟨Or.inl ⟨err, rfl⟩, rfl⟩
  | ok resp =>
    cases resp with
    | noData => left; exact ⟨Or.inr rfl, rfl⟩
    | data cid =>
      right
      refine ⟨cid, rfl, ?_⟩
      cases hc : s.contract with
      | none => left; exact ⟨rfl, rfl⟩
      | some c =>
        right
        refine ⟨c, rfl, ?_⟩
        simp only []
        cases hadd : w.addPrompt (h ++ (Event.upload file w.apiKey (.ok (.data cid))
            :: progressLog (w.upload h file w.apiKey).1 ++ [.consoleLog (.uploadedCid cid)]))
            c cid with
        | error err => left; exact ⟨err, by simp [uploadedLog, submitFailed]⟩
        | ok tx =>
          right
          cases hwait : w.wait (h ++ (Event.upload file w.apiKey (.ok (.data cid))
              :: progressLog (w.upload h file w.apiKey).1 ++ [.consoleLog (.uploadedCid cid)])
              ++ [.addPrompt c cid (.ok tx)]) tx with
          | error err => left; exact ⟨tx, err, by simp at hwait; simp [uploadedLog, submitFailed, hwait]⟩
          | ok u => right; exact ⟨tx, by simp at hwait; simp [uploadedLog, hwait]⟩

theorem any_progressLog (p : Event → Bool) (hp : ∀ l, p (.consoleLog l) = false)
    (ps : List ProgressData) : (progressLog ps).any p = false := by
  induction ps with
  | nil => rfl
  | cons q qs ih =>
    simp only [progressLog, List.map_cons, List.any_cons, hp, Bool.false_or]
    exact ih

theorem exists_mem_iff_any (p : Event → Bool) (evs : List Event) :
    (∃ e ∈ evs, p e = true) ↔ evs.any p = true := by
  simp [List.any_eq_true]

theorem forall_mem_iff_any (p : Event → Bool) (evs : List Event) :
    (∀ e ∈ evs, p e = false) ↔ evs.any p = false := by
  simp [List.any_eq_false]

theorem any_fetchPromptCount (p : Event → Bool) (hp : ∀ m, p (.consoleError m) = false)
    (w : World) (c : Contract) (user : Option Address) (s : View) (h : List Event) :
    (fetchPromptCount w c user s h).2.any p
      = p (.getPromptCount c user (w.getPromptCount h c user)) := by
  obtain ⟨n, tail, heq, rfl | ⟨msg, rfl⟩⟩ := fetchPromptCount_cases w c user s h
  · rw [heq]; simp
  · rw [heq]; simp [hp]

theorem uploadedLog_eq (file : File) (key : Option String) (ps : List ProgressData)
    (cid : Option Cid) :
    uploadedLog file key ps cid
      = [Event.upload file key (.ok (.data cid))] ++ progressLog ps
        ++ [.consoleLog (.uploadedCid cid)] := rfl

theorem alerts_uploadedLog (file : File) (key : Option String) (ps : List ProgressData)
    (cid : Option Cid) : alerts (uploadedLog file key ps cid) = [] := by
  rw [uploadedLog_eq, alerts_append, alerts_append, alerts_progressLog]; rfl

theorem countReads_uploadedLog (file : File) (key : Option String) (ps : List ProgressData)
    (cid : Option Cid) : countReads (uploadedLog file key ps cid) = [] := by
  rw [uploadedLog_eq, countReads_append, countReads_append, countReads_progressLog]; rfl

theorem ledgerWrites_uploadedLog (file : File) (key : Option String) (ps : List ProgressData)
    (cid : Option Cid) : ledgerWrites (uploadedLog file key ps cid) = [] := by
  rw [uploadedLog_eq, ledgerWrites_append, ledgerWrites_append, ledgerWrites_progressLog]; rfl

theorem uploads_uploadedLog (file : File) (key : Option String) (ps : List ProgressData)
    (cid : Option Cid) : uploads (uploadedLog file key ps cid) = [file] := by
  rw [uploadedLog_eq, uploads_append, uploads_append, uploads_progressLog]; rfl

theorem any_uploadedLog (p : Event → Bool) (hp : ∀ l, p (.consoleLog l) = false)
    (file : File) (key : Option String) (ps : List ProgressData) (cid : Option Cid) :
    (uploadedLog file key ps cid).any p = p (.upload file key (.ok (.data cid))) := by
  rw [uploadedLog_eq, List.any_append, List.any_append, any_progressLog p hp]
  simp [hp]

/-- C5.  If, in a run of `uploadToLighthouse`, the call `contract.addPrompt` or
the wait for its transaction is rejected, then the view is exactly what it was
(so `promptCount`, `account`, `contract`, `prompts`, `selectedFile` and `metadata`
are unchanged), no `getPromptCount` read is issued, and the only message shown is
the failure message (in particular not the success message). -/
theorem uploadToLighthouse_write_failure (w : World) (s : View) (h : List Event)
    (hfail : ∃ e ∈ (uploadToLighthouse w s h).2, e.isFailedWrite = true) :
    (uploadToLighthouse w s h).1 = s ∧
    countReads (uploadToLighthouse w s h).2 = [] ∧
    alerts (uploadToLighthouse w s h).2 = [msgSubmitFailed] ∧
    msgStored ∉ alerts (uploadToLighthouse w s h).2 ∧
    (uploads (uploadToLighthouse w s h).2).length = 1 ∧
    (ledgerWrites (uploadToLighthouse w s h).2).length = 1 := by
  rw [exists_mem_iff_any] at hfail
  have hne : msgStored ∉ [msgSubmitFailed] := by decide
  cases hf : s.selectedFile with
  | none =>
    rw [uploadToLighthouse_of_no_file w s h hf] at hfail
    simp [Event.isFailedWrite] at hfail
  | some file =>
    obtain ⟨ps, r, _, hcase⟩ := uploadToLighthouse_cases w s h file hf
    have hprog := any_progressLog Event.isFailedWrite (fun _ => rfl) ps
    have hlog := any_uploadedLog Event.isFailedWrite (fun _ => rfl) file w.apiKey ps
    rcases hcase with ⟨_, heq⟩ | ⟨cid, rfl, ⟨_, heq⟩ | ⟨c, _, ⟨err, heq⟩ | ⟨tx, err, heq⟩ | ⟨tx, heq⟩⟩⟩
    · rw [heq] at hfail
      simp [submitFailed, hprog, Event.isFailedWrite] at hfail
    · rw [heq] at hfail
      simp [hlog, Event.isFailedWrite] at hfail
    · rw [heq]
      have ha : alerts (uploadedLog file w.apiKey ps cid
          ++ Event.addPrompt c cid (.error err) :: submitFailed) = [msgSubmitFailed] := by
        rw [alerts_append, alerts_uploadedLog]; rfl
      refine ⟨rfl, ?_, ha, ?_, ?_, ?_⟩
      · rw [countReads_append, countReads_uploadedLog]; rfl
      · rw [ha]; exact hne
      · rw [uploads_append, uploads_uploadedLog]; rfl
      · rw [ledgerWrites_append, ledgerWrites_uploadedLog]; rfl
    · rw [heq]
      have ha : alerts (uploadedLog file w.apiKey ps cid
          ++ Event.addPrompt c cid (.ok tx) :: .txWait tx (.error err) :: submitFailed)
          = [msgSubmitFailed] := by
        rw [alerts_append, alerts_uploadedLog]; rfl
      refine ⟨rfl, ?_, ha, ?_, ?_, ?_⟩
      · rw [countReads_append, countReads_uploadedLog]; rfl
      · rw [ha]; exact hne
      · rw [uploads_append, uploads_uploadedLog]; rfl
      · rw [ledgerWrites_append, ledgerWrites_uploadedLog]; rfl
    · rw [heq] at hfail
      simp [hlog, Event.isFailedWrite,
        any_fetchPromptCount Event.isFailedWrite (fun _ => rfl)] at hfail

theorem ledgerWrites_fetchPromptCount (w : World) (c : Contract) (user : Option Address)
    (s : View) (h : List Event) : ledgerWrites (fetchPromptCount w c user s h).2 = [] := by
  obtain ⟨n, tail, heq, rfl | ⟨msg, rfl⟩⟩ := fetchPromptCount_cases w c user s h <;>
    rw [heq] <;> rfl

theorem countReads_fetchPromptCount (w : World) (c : Contract) (user : Option Address)
    (s : View) (h : List Event) :
    countReads (fetchPromptCount w c user s h).2 = [(c, user)] := by
  obtain ⟨n, tail, heq, rfl | ⟨msg, rfl⟩⟩ := fetchPromptCount_cases w c user s h <;>
    rw [heq] <;> rfl

/-- C6 (as amended).  If, in a run of `uploadToLighthouse`, the upload is rejected
or resolves to a response without `data` (so that reading `data.Hash` throws),
then no call on the ledger handle is issued (no `addPrompt`, no count read), the
view is what it was, and the only message shown is the failure message.  In every
run, a ledger write `addPrompt(cid)` is issued only on the handle of the view,
after the upload of the selected file has resolved, and with the value read from
`data.Hash` of that response. -/
theorem uploadToLighthouse_upload_failure (w : World) (s : View) (h : List Event) :
    ((∃ e ∈ (uploadToLighthouse w s h).2, e.isFailedUpload = true) →
      (uploadToLighthouse w s h).1 = s ∧
      ledgerWrites (uploadToLighthouse w s h).2 = [] ∧
      countReads (uploadToLighthouse w s h).2 = [] ∧
      (∀ e ∈ (uploadToLighthouse w s h).2, e.isLedgerCall = false) ∧
      alerts (uploadToLighthouse w s h).2 = [msgSubmitFailed]) ∧
    (∀ c cid, (c, cid) ∈ ledgerWrites (uploadToLighthouse w s h).2 →
      ∃ file ps r post, s.selectedFile = some file ∧ s.contract = some c ∧
        (uploadToLighthouse w s h).2
          = uploadedLog file w.apiKey ps cid ++ Event.addPrompt c cid r :: post) := by
  rw [exists_mem_iff_any, forall_mem_iff_any]
  cases hf : s.selectedFile with
  | none =>
    rw [uploadToLighthouse_of_no_file w s h hf]
    constructor
    · intro hfail
      simp [Event.isFailedUpload] at hfail
    · intro c cid hmem
      simp [ledgerWrites] at hmem
  | some file =>
    obtain ⟨ps, r, _, hcase⟩ := uploadToLighthouse_cases w s h file hf
    have hlog := any_uploadedLog Event.isFailedUpload (fun _ => rfl) file w.apiKey ps
    rcases hcase with ⟨hr, heq⟩ | ⟨cid, rfl, ⟨_, heq⟩ | ⟨c, hc, ⟨err, heq⟩ | ⟨tx, err, heq⟩ | ⟨tx, heq⟩⟩⟩
    · rw [heq]
      have hw : ledgerWrites (Event.upload file w.apiKey r :: progressLog ps ++ submitFailed)
          = [] := by
        show ledgerWrites ([Event.upload file w.apiKey r] ++ progressLog ps ++ submitFailed) = []
        rw [ledgerWrites_append, ledgerWrites_append, ledgerWrites_progressLog]; rfl
      constructor
      · intro _
        refine ⟨rfl, hw, ?_, ?_, ?_⟩
        · show countReads ([Event.upload file w.apiKey r] ++ progressLog ps ++ submitFailed) = []
          rw [countReads_append, countReads_append, countReads_progressLog]; rfl
        · show ([Event.upload file w.apiKey r] ++ progressLog ps ++ submitFailed).any
            Event.isLedgerCall = false
          rw [List.any_append, List.any_append, any_progressLog _ (fun _ => rfl)]; rfl
        · show alerts ([Event.upload file w.apiKey r] ++ progressLog ps ++ submitFailed)
            = [msgSubmitFailed]
          rw [alerts_append, alerts_append, alerts_progressLog]; rfl
      · intro c cid hmem
        rw [hw] at hmem
        simp at hmem
    · rw [heq]
      constructor
      · intro hfail
        simp [hlog, Event.isFailedUpload] at hfail
      · intro c cid' hmem
        rw [ledgerWrites_uploadedLog] at hmem
        simp at hmem
    · rw [heq]
      constructor
      · intro hfail
        simp [hlog, Event.isFailedUpload, submitFailed] at hfail
      · intro c' cid' hmem
        rw [ledgerWrites_append, ledgerWrites_uploadedLog] at hmem
        simp [ledgerWrites, submitFailed] at hmem
        obtain ⟨rfl, rfl⟩ := hmem
        exact ⟨file, ps, _, _, rfl, hc, rfl⟩
    · rw [heq]
      constructor
      · intro hfail
        simp [hlog, Event.isFailedUpload, submitFailed] at hfail
      · intro c' cid' hmem
        rw [ledgerWrites_append, ledgerWrites_uploadedLog] at hmem
        simp [ledgerWrites, submitFailed] at hmem
        obtain ⟨rfl, rfl⟩ := hmem
        exact ⟨file, ps, _, _, rfl, hc, rfl⟩
    · rw [heq]
      constructor
      · intro hfail
        simp [hlog, Event.isFailedUpload,
          any_fetchPromptCount Event.isFailedUpload (fun _ => rfl)] at hfail
      · intro c' cid' hmem
        rw [ledgerWrites_append, ledgerWrites_append, ledgerWrites_uploadedLog,
          ledgerWrites_fetchPromptCount] at hmem
        simp [ledgerWrites] at hmem
        obtain ⟨rfl, rfl⟩ := hmem
        exact ⟨file, ps, .ok tx, _, rfl, hc, List.append_assoc _ _ _⟩

/-- C10 (as amended).  Submitting a selected file while the view holds no ledger
handle performs exactly one upload, of that file, issues no call on a ledger handle
(no `addPrompt`, no count read), leaves the view as it was and never shows the
success message.  When the upload resolves to a response with `data`, the run is
the upload, its progress lines and the line logging the identifier, and no message
at all is shown to the user.  When the upload is rejected or resolves to a response
without `data`, the failure message, and only it, is shown. -/
theorem uploadToLighthouse_without_handle (w : World) (s : View) (h : List Event)
    (file : File) (hf : s.selectedFile = some file) (hc : s.contract = none) :
    (uploadToLighthouse w s h).1 = s ∧
    uploads (uploadToLighthouse w s h).2 = [file] ∧
    ledgerWrites (uploadToLighthouse w s h).2 = [] ∧
    countReads (uploadToLighthouse w s h).2 = [] ∧
    (∀ e ∈ (uploadToLighthouse w s h).2, e.isLedgerCall = false) ∧
    (∀ cid, Event.upload file w.apiKey (.ok (.data cid)) ∈ (uploadToLighthouse w s h).2 →
      alerts (uploadToLighthouse w s h).2 = [] ∧
      ∃ ps, (uploadToLighthouse w s h).2 = uploadedLog file w.apiKey ps cid) ∧
    ((∃ e ∈ (uploadToLighthouse w s h).2, e.isFailedUpload = true) →
      alerts (uploadToLighthouse w s h).2 = [msgSubmitFailed]) ∧
    (alerts (uploadToLighthouse w s h).2 = [] ∨
      alerts (uploadToLighthouse w s h).2 = [msgSubmitFailed]) ∧
    msgStored ∉ alerts (uploadToLighthouse w s h).2 := by
  rw [forall_mem_iff_any, exists_mem_iff_any]
  have hne : msgStored ∉ [msgSubmitFailed] := by decide
  obtain ⟨ps, r, _, hcase⟩ := uploadToLighthouse_cases w s h file hf
  rcases hcase with ⟨hr, heq⟩ | ⟨cid, rfl, ⟨_, heq⟩ | ⟨c, hc', _⟩⟩
  · rw [heq]
    have ha : alerts (Event.upload file w.apiKey r :: progressLog ps ++ submitFailed)
        = [msgSubmitFailed] := by
      show alerts ([Event.upload file w.apiKey r] ++ progressLog ps ++ submitFailed) = _
      rw [alerts_append, alerts_append, alerts_progressLog]; rfl
    refine ⟨rfl, ?_, ?_, ?_, ?_, ?_, fun _ => ha, Or.inr ha, by rw [ha]; exact hne⟩
    · show uploads ([Event.upload file w.apiKey r] ++ progressLog ps ++ submitFailed) = [file]
      rw [uploads_append, uploads_append, uploads_progressLog]; rfl
    · show ledgerWrites ([Event.upload file w.apiKey r] ++ progressLog ps ++ submitFailed) = []
      rw [ledgerWrites_append, ledgerWrites_append, ledgerWrites_progressLog]; rfl
    · show countReads ([Event.upload file w.apiKey r] ++ progressLog ps ++ submitFailed) = []
      rw [countReads_append, countReads_append, countReads_progressLog]; rfl
    · show ([Event.upload file w.apiKey r] ++ progressLog ps ++ submitFailed).any
        Event.isLedgerCall = false
      rw [List.any_append, List.any_append, any_progressLog _ (fun _ => rfl)]; rfl
    · intro cid hmem
      exfalso
      simp only [List.mem_cons, List.mem_append, submitFailed] at hmem
      rcases hmem with (hmem | hmem) | hmem
      · injection hmem with _ _ h3
        rcases hr with ⟨err, rfl⟩ | rfl <;> cases h3
      · obtain ⟨p, hp⟩ := mem_progressLog ps _ hmem
        cases hp
      · simp at hmem
  · rw [heq]
    have ha : alerts (uploadedLog file w.apiKey ps cid) = [] := alerts_uploadedLog _ _ _ _
    refine ⟨rfl, uploads_uploadedLog _ _ _ _, ledgerWrites_uploadedLog _ _ _ _,
      countReads_uploadedLog _ _ _ _, any_uploadedLog _ (fun _ => rfl) _ _ _ _, ?_, ?_,
      Or.inl ha, by rw [ha]; simp⟩
    · intro cid' hmem
      refine ⟨ha, ps, ?_⟩
      have hcid : cid' = cid := by
        simp only [uploadedLog, List.mem_cons, List.mem_append] at hmem
        rcases hmem with (hmem | hmem) | hmem
        · injection hmem with _ _ h3
          injection h3 with h4
          injection h4
        · obtain ⟨p, hp⟩ := mem_progressLog ps _ hmem
          cases hp
        · simp at hmem
      rw [hcid]
    · intro hfail
      rw [any_uploadedLog Event.isFailedUpload (fun _ => rfl)] at hfail
      simp [Event.isFailedUpload] at hfail
  · rw [hc] at hc'
    cases hc'

/-! ## The connection flow -/

/-- C7.  Whatever the account and handle of the view were, a call of
`connectWallet` on a provider that ends without the failure message got an account
list and a signer from the provider, and leaves a view whose `account` is the first
account of that list and whose `contract` is the handle built from that signer; the
one count read that follows is issued on that handle for that account.  The other
cells of the view, apart from `promptCount`, are untouched. -/
theorem connectWallet_replaces_session (w : World) (p : Provider) (s : View)
    (h : List Event) (hok : alerts (connectWallet w (some p) s h).2 = []) :
    ∃ (accounts : List Address) (signer : Signer) (tail : List Event),
      (connectWallet w (some p) s h).2
        = Event.requestAccounts p (.ok accounts) :: .getSigner p (.ok signer)
          :: .newContract w.contractAddress signer none :: tail ∧
      (connectWallet w (some p) s h).1.account = accounts.head? ∧
      (connectWallet w (some p) s h).1.contract
        = some { target := w.contractAddress, signer := signer } ∧
      countReads (connectWallet w (some p) s h).2
        = [({ target := w.contractAddress, signer := signer }, accounts.head?)] ∧
      (connectWallet w (some p) s h).1.provider = s.provider ∧
      (connectWallet w (some p) s h).1.selectedFile = s.selectedFile ∧
      (connectWallet w (some p) s h).1.prompts = s.prompts ∧
      (connectWallet w (some p) s h).1.metadata = s.metadata := by
  unfold connectWallet at hok ⊢
  simp only [] at hok ⊢
  cases h1 : w.send h p with
  | error err => simp [h1, alerts] at hok
  | ok accounts =>
    simp only [h1] at hok ⊢
    cases h2 : w.getSigner (h ++ [Event.requestAccounts p (.ok accounts)]) p with
    | error err => simp [h2, alerts] at hok
    | ok signer =>
      simp only [h2] at hok ⊢
      cases h3 : w.newContract
          (h ++ [Event.requestAccounts p (.ok accounts), .getSigner p (.ok signer)])
          w.contractAddress signer with
      | some err => simp [h3, alerts] at hok
      | none =>
        simp only [h3]
        obtain ⟨n, tail, heq, _⟩ := fetchPromptCount_cases w
          { target := w.contractAddress, signer := signer } accounts.head?
          { account := accounts.head?, contract := some { target := w.contractAddress, signer := signer },
            provider := s.provider, selectedFile := s.selectedFile, promptCount := s.promptCount,
            prompts := s.prompts, metadata := s.metadata }
          (h ++ [Event.requestAccounts p (.ok accounts), .getSigner p (.ok signer),
            .newContract w.contractAddress signer none])
        refine ⟨accounts, signer, _, rfl, ?_, ?_, ?_, ?_, ?_, ?_, ?_⟩
        · rw [heq]
        · rw [heq]
        · show countReads ([Event.requestAccounts p (.ok accounts), .getSigner p (.ok signer),
            .newContract w.contractAddress signer none] ++ _) = _
          rw [countReads_append, countReads_fetchPromptCount]; rfl
        · rw [heq]
        · rw [heq]
        · rw [heq]
        · rw [heq]

/-- C8.  Without a wallet extension the page-load effect only shows its message:
no account request, no ledger call, the view untouched.  A call of `connectWallet`
with a `null` provider (the connect button on such a page) only logs the error and
shows the failure message, the view untouched.  When the provider rejects the
account request, the view is untouched as well, no ledger call is made, and the
failure message is shown. -/
theorem connect_without_wallet (w : World) (s : View) (h : List Event) :
    (w.ethereum = none → init w s h = (s, [.alert msgNoWallet])) ∧
    connectWallet w none s h
      = (s, [.consoleError "Error connecting wallet:", .alert msgConnectFailed]) ∧
    (∀ p err, Event.requestAccounts p (.error err) ∈ (connectWallet w (some p) s h).2 →
      connectWallet w (some p) s h
        = (s, [.requestAccounts p (.error err), .consoleError "Error connecting wallet:",
               .alert msgConnectFailed])) := by
  refine ⟨fun hw => by simp [init, hw], rfl, ?_⟩
  intro p err hmem
  unfold connectWallet at hmem ⊢
  simp only [] at hmem ⊢
  cases h1 : w.send h p with
  | error err' =>
    simp only [h1] at hmem ⊢
    simp at hmem
    rw [hmem]
  | ok accounts =>
    exfalso
    simp only [h1] at hmem
    cases h2 : w.getSigner (h ++ [Event.requestAccounts p (.ok accounts)]) p with
    | error err' => simp [h2] at hmem
    | ok signer =>
      simp only [h2] at hmem
      cases h3 : w.newContract
          (h ++ [Event.requestAccounts p (.ok accounts), .getSigner p (.ok signer)])
          w.contractAddress signer with
      | some err' => simp [h3] at hmem
      | none =>
        simp only [h3] at hmem
        obtain ⟨n, tail, heq, rfl | ⟨msg, rfl⟩⟩ := fetchPromptCount_cases w
          { target := w.contractAddress, signer := signer } accounts.head?
          { account := accounts.head?, contract := some { target := w.contractAddress, signer := signer },
            provider := s.provider, selectedFile := s.selectedFile, promptCount := s.promptCount,
            prompts := s.prompts, metadata := s.metadata }
          (h ++ [Event.requestAccounts p (.ok accounts), .getSigner p (.ok signer),
            .newContract w.contractAddress signer none])
        · rw [heq] at hmem; simp at hmem
        · rw [heq] at hmem; simp at hmem

/-! ## The count after a submission -/

/-- On the modelled ledger, `addPrompt` advances the caller's count by one and
leaves every other count as it was. -/
theorem Ledger.getPromptCount_addPrompt (L : Ledger) (caller user : Nat) (cid : Cid) :
    (L.addPrompt caller cid).getPromptCount user
      = if user = caller then L.getPromptCount user + 1 else L.getPromptCount user := by
  unfold Ledger.addPrompt Ledger.getPromptCount
  by_cases hu : user = caller <;> simp [hu]

/-- Two spellings of the sample account denote one account. -/
theorem accountId_walletAddress : accountId walletAddress = accountId signerAddress := by
  decide

/-- A count that passes the guard and converts is stored. -/
theorem fetchPromptCount_of_number (w : World) (c : Contract) (user : Option Address)
    (s : View) (h : List Event) (n : Nat)
    (hr : w.getPromptCount h c user = .ok (.withToNumber (.ok n))) :
    (fetchPromptCount w c user s h).1 = { s with promptCount := n } := by
  unfold fetchPromptCount
  simp only [hr]

/-- A count read that does not resolve to a value whose `toNumber` returns leaves
the view as it was. -/
theorem fetchPromptCount_of_invalid (w : World) (c : Contract) (user : Option Address)
    (s : View) (h : List Event)
    (hr : ∀ n, w.getPromptCount h c user ≠ .ok (.withToNumber (.ok n))) :
    (fetchPromptCount w c user s h).1 = s := by
  unfold fetchPromptCount
  cases hv : w.getPromptCount h c user with
  | error err => rfl
  | ok v =>
    cases v with
    | falsy => rfl
    | noToNumber => rfl
    | withToNumber r =>
      cases r with
      | ok n => exact absurd hv (hr n)
      | error err => rfl

/-- A native `bigint` never passes the guard of line 118. -/
theorem asBigInt_ne_withToNumber (n : Nat) (r : Res Nat) : asBigInt n ≠ .withToNumber r := by
  unfold asBigInt
  split <;> intro hn <;> cases hn

/-- With a handle that hands every count out as a native `bigint`, no submission
ever changes the view: `promptCount` keeps the value it had, whatever the ledger
holds. -/
theorem uploadToLighthouse_view_of_bigint (w : World) (s : View) (h : List Event)
    (hbig : ∀ log c u v, w.getPromptCount log c u = .ok v → ∃ n, v = asBigInt n) :
    (uploadToLighthouse w s h).1 = s := by
  rcases Option.eq_none_or_eq_some s.selectedFile with hf | ⟨file, hf⟩
  · rw [uploadToLighthouse_of_no_file w s h hf]
  · obtain ⟨ps, r, _, hcase⟩ := uploadToLighthouse_cases w s h file hf
    rcases hcase with ⟨_, heq⟩ | ⟨cid, rfl, ⟨_, heq⟩ | ⟨c, _, ⟨err, heq⟩ | ⟨tx, err, heq⟩ | ⟨tx, heq⟩⟩⟩
    · rw [heq]
    · rw [heq]
    · rw [heq]
    · rw [heq]
    · rw [heq]
      refine fetchPromptCount_of_invalid w c s.account s _ ?_
      intro n hn
      obtain ⟨m, hm⟩ := hbig _ _ _ _ hn
      exact asBigInt_ne_withToNumber m (.ok n) hm.symm

/-- C4 (the code at the failing input).  The page is loaded with the sample wallet
on the empty ledger and a file is picked.  Behind a handle that hands counts out as
native `bigint`s, the submission succeeds: the success message is shown, the one
write is confirmed, the ledger count of the account goes from 0 to 1, and the count
is read again once, on the handle and for the account of the view; that read
resolves to the `bigint` for 1, the guard of line 118 rejects it, the error line is
logged and `promptCount` is still 0, not 0 + 1.  Behind a handle that hands counts
out as `BigNumber` objects the same submission leaves `promptCount` at 1. -/
theorem uploadToLighthouse_bigint_count_stale :
    (init bigintWorld View.initial []).1.account = some walletAddress ∧
    (init bigintWorld View.initial []).1.contract = some walletContract ∧
    (init bigintWorld View.initial []).1.promptCount = 0 ∧
    ledgerCount (ledgerAfter Ledger.empty (init bigintWorld View.initial []).2) walletAddress
      = 0 ∧
    alerts (uploadToLighthouse bigintWorld
      (handleFileChange [sampleFile] (init bigintWorld View.initial []).1)
      (init bigintWorld View.initial []).2).2 = [msgStored] ∧
    ledgerWrites (uploadToLighthouse bigintWorld
      (handleFileChange [sampleFile] (init bigintWorld View.initial []).1)
      (init bigintWorld View.initial []).2).2 = [(walletContract, some "Qmprompt.json")] ∧
    ledgerCount (ledgerAfter Ledger.empty ((init bigintWorld View.initial []).2
      ++ (uploadToLighthouse bigintWorld
        (handleFileChange [sampleFile] (init bigintWorld View.initial []).1)
        (init bigintWorld View.initial []).2).2)) walletAddress = 1 ∧
    countReads (uploadToLighthouse bigintWorld
      (handleFileChange [sampleFile] (init bigintWorld View.initial []).1)
      (init bigintWorld View.initial []).2).2 = [(walletContract, some walletAddress)] ∧
    Event.getPromptCount walletContract (some walletAddress) (.ok (asBigInt 1))
      ∈ (uploadToLighthouse bigintWorld
        (handleFileChange [sampleFile] (init bigintWorld View.initial []).1)
        (init bigintWorld View.initial []).2).2 ∧
    Event.consoleError "Invalid value for prompt count"
      ∈ (uploadToLighthouse bigintWorld
        (handleFileChange [sampleFile] (init bigintWorld View.initial []).1)
        (init bigintWorld View.initial []).2).2 ∧
    (uploadToLighthouse bigintWorld
      (handleFileChange [sampleFile] (init bigintWorld View.initial []).1)
      (init bigintWorld View.initial []).2).1.promptCount = 0 ∧
    (uploadToLighthouse bigNumberWorld
      (handleFileChange [sampleFile] (init bigNumberWorld View.initial []).1)
      (init bigNumberWorld View.initial []).2).1.promptCount = 1 := by
  decide

/-! ## The theorems at the sample collaborators -/

/-- C1, as first stated, fails: with three records known and the ledger read at
index 1 rejected, only the reads at indices 0 and 1 are issued, not three. -/
theorem fetchUserPrompts_reads_counterexample :
    sampleView.contract = some sampleContract ∧
    sampleView.promptCount = 3 ∧
    ledgerReads (fetchUserPrompts (sampleWorld (some 1) none) sampleView []).2
      = [(sampleContract, some "0xA11CE", 0), (sampleContract, some "0xA11CE", 1)] ∧
    (ledgerReads (fetchUserPrompts (sampleWorld (some 1) none) sampleView []).2).length
      ≠ sampleView.promptCount := by
  decide

/-- Sample run of the retrieval flow with the read at index 1 rejected. -/
theorem fetchUserPrompts_calls_witness :
    sampleView.contract = some sampleContract ∧
    (ledgerReads (fetchUserPrompts (sampleWorld (some 1) none) sampleView []).2).length
      ≤ sampleView.promptCount ∧
    (storageFetches (fetchUserPrompts (sampleWorld (some 1) none) sampleView []).2).length
      ≤ sampleView.promptCount ∧
    ledgerReads (fetchUserPrompts (sampleWorld (some 1) none) sampleView []).2
      = (List.range
          (ledgerReads (fetchUserPrompts (sampleWorld (some 1) none) sampleView []).2).length).map
          (fun i => (sampleContract, sampleView.account, i)) :=
  ⟨rfl,
   (fetchUserPrompts_calls (sampleWorld (some 1) none) sampleView [] sampleContract rfl).1,
   (fetchUserPrompts_calls (sampleWorld (some 1) none) sampleView [] sampleContract rfl).2.1,
   (fetchUserPrompts_calls (sampleWorld (some 1) none) sampleView [] sampleContract rfl).2.2.1⟩

/-- Sample run of the retrieval flow with three records, the gateway request for the
second one failing: the entries are the first record, `null`, the third record. -/
theorem fetchUserPrompts_placeholders_witness :
    sampleView.contract = some sampleContract ∧
    (∀ e ∈ (fetchUserPrompts (sampleWorld none (some "QmB")) sampleView []).2,
      e.isFailedRead = false) ∧
    (fetchUserPrompts (sampleWorld none (some "QmB")) sampleView []).1.prompts
      = [sampleRecord 0, .null, sampleRecord 2] ∧
    ∃ fs : List Fetched,
      fs.length = sampleView.promptCount ∧
      (fetchUserPrompts (sampleWorld none (some "QmB")) sampleView []).1
        = { sampleView with prompts := fs.map Fetched.value } :=
  ⟨rfl, by decide, by decide,
   (fetchUserPrompts_placeholders (sampleWorld none (some "QmB")) sampleView [] sampleContract
      rfl (by decide)).elim fun fs hfs => ⟨fs, hfs.1, hfs.2.2.1⟩⟩

/-- Sample submission without a file. -/
theorem uploadToLighthouse_no_file_witness :
    sampleView.selectedFile = none ∧
    uploadToLighthouse (sampleWorld none none) sampleView []
      = (sampleView, [.alert msgSelectFile]) :=
  ⟨rfl, (uploadToLighthouse_no_file (sampleWorld none none) sampleView [] rfl).1⟩

/-- Sample submission on a handle that rejects `addPrompt`. -/
theorem uploadToLighthouse_write_failure_witness :
    (∃ e ∈ (uploadToLighthouse rejectingLedgerWorld submitView []).2, e.isFailedWrite = true) ∧
    (uploadToLighthouse rejectingLedgerWorld submitView []).1 = submitView ∧
    countReads (uploadToLighthouse rejectingLedgerWorld submitView []).2 = [] ∧
    alerts (uploadToLighthouse rejectingLedgerWorld submitView []).2 = [msgSubmitFailed] :=
  ⟨by decide,
   (uploadToLighthouse_write_failure rejectingLedgerWorld submitView [] (by decide)).1,
   (uploadToLighthouse_write_failure rejectingLedgerWorld submitView [] (by decide)).2.1,
   (uploadToLighthouse_write_failure rejectingLedgerWorld submitView [] (by decide)).2.2.1⟩

/-- C6, as first stated, fails: when the upload resolves to a response whose `data`
has no `Hash`, the flow goes on and calls `addPrompt` with `undefined`. -/
theorem uploadToLighthouse_missing_hash_counterexample :
    (∃ e ∈ (uploadToLighthouse noHashWorld submitView []).2, e.isUploadWithoutHash = true) ∧
    ledgerWrites (uploadToLighthouse noHashWorld submitView []).2 = [(sampleContract, none)] ∧
    ledgerWrites (uploadToLighthouse noHashWorld submitView []).2 ≠ [] := by
  decide

/-- Sample submissions: one with a rejected upload, one that reaches the ledger
write. -/
theorem uploadToLighthouse_upload_failure_witness :
    (∃ e ∈ (uploadToLighthouse rejectingStorageWorld submitView []).2,
      e.isFailedUpload = true) ∧
    (uploadToLighthouse rejectingStorageWorld submitView []).1 = submitView ∧
    ledgerWrites (uploadToLighthouse rejectingStorageWorld submitView []).2 = [] ∧
    (sampleContract, some "Qmprompt.json")
      ∈ ledgerWrites (uploadToLighthouse (sampleWorld none none) submitView []).2 ∧
    ∃ file ps r post, submitView.selectedFile = some file ∧
      submitView.contract = some sampleContract ∧
      (uploadToLighthouse (sampleWorld none none) submitView []).2
        = uploadedLog file (sampleWorld none none).apiKey ps (some "Qmprompt.json")
          ++ Event.addPrompt sampleContract (some "Qmprompt.json") r :: post :=
  ⟨by decide,
   ((uploadToLighthouse_upload_failure rejectingStorageWorld submitView []).1 (by decide)).1,
   ((uploadToLighthouse_upload_failure rejectingStorageWorld submitView []).1 (by decide)).2.1,
   by decide,
   (uploadToLighthouse_upload_failure (sampleWorld none none) submitView []).2
      sampleContract (some "Qmprompt.json") (by decide)⟩

/-- Sample reconnection from a session of another account. -/
theorem connectWallet_replaces_session_witness :
    alerts (connectWallet (sampleWorld none none) (some { ethereum := { id := 1 } })
      staleView []).2 = [] ∧
    staleView.account = some "0x0DD" ∧
    ∃ (accounts : List Address) (signer : Signer),
      accounts.head? = some "0xA11CE" ∧
      (connectWallet (sampleWorld none none) (some { ethereum := { id := 1 } })
        staleView []).1.account = accounts.head? ∧
      (connectWallet (sampleWorld none none) (some { ethereum := { id := 1 } })
        staleView []).1.contract
        = some { target := (sampleWorld none none).contractAddress, signer := signer } :=
  ⟨by decide, rfl,
   (connectWallet_replaces_session (sampleWorld none none) { ethereum := { id := 1 } }
      staleView [] (by decide)).elim fun accounts hex =>
        hex.elim fun signer hex2 => hex2.elim fun _ hall =>
          ⟨accounts, signer, hall.2.1.symm.trans (by decide), hall.2.1, hall.2.2.1⟩⟩

/-- Sample page loads and clicks without a wallet, and with a wallet whose user
rejects the request. -/
theorem connect_without_wallet_witness :
    noWalletWorld.ethereum = none ∧
    init noWalletWorld View.initial [] = (View.initial, [.alert msgNoWallet]) ∧
    connectWallet noWalletWorld none View.initial []
      = (View.initial, [.consoleError "Error connecting wallet:", .alert msgConnectFailed]) ∧
    Event.requestAccounts { ethereum := { id := 1 } } (.error { msg := "User rejected the request." })
      ∈ (connectWallet rejectingWalletWorld (some { ethereum := { id := 1 } }) staleView []).2 ∧
    connectWallet rejectingWalletWorld (some { ethereum := { id := 1 } }) staleView []
      = (staleView,
         [.requestAccounts { ethereum := { id := 1 } } (.error { msg := "User rejected the request." }),
          .consoleError "Error connecting wallet:", .alert msgConnectFailed]) :=
  ⟨rfl,
   (connect_without_wallet noWalletWorld View.initial []).1 rfl,
   (connect_without_wallet noWalletWorld View.initial []).2.1,
   by decide,
   (connect_without_wallet rejectingWalletWorld staleView []).2.2 _ _ (by decide)⟩

/-- Sample runs of the retrieval flow: one with the read at index 1 rejected, one
with only a gateway failure. -/
theorem fetchUserPrompts_read_failure_aborts_witness :
    sampleView.contract = some sampleContract ∧
    Event.getPrompt sampleContract sampleView.account 1 (.error { msg := "call revert" })
      ∈ (fetchUserPrompts (sampleWorld (some 1) none) sampleView []).2 ∧
    (fetchUserPrompts (sampleWorld (some 1) none) sampleView []).1 = sampleView ∧
    alerts (fetchUserPrompts (sampleWorld (some 1) none) sampleView []).2
      = [msgRetrieveFailed] ∧
    (∀ e ∈ (fetchUserPrompts (sampleWorld none (some "QmB")) sampleView []).2,
      e.isFailedRead = false) ∧
    alerts (fetchUserPrompts (sampleWorld none (some "QmB")) sampleView []).2 = [] :=
  ⟨rfl, by decide,
   ((fetchUserPrompts_read_failure_aborts (sampleWorld (some 1) none) sampleView []
      sampleContract rfl).1 1 { msg := "call revert" } (by decide)).2.1,
   ((fetchUserPrompts_read_failure_aborts (sampleWorld (some 1) none) sampleView []
      sampleContract rfl).1 1 { msg := "call revert" } (by decide)).2.2.1,
   by decide,
   ((fetchUserPrompts_read_failure_aborts (sampleWorld none (some "QmB")) sampleView []
      sampleContract rfl).2 (by decide)).2.2⟩

/-- C10, as first stated, fails: on a page that never connected, a submission whose
upload is rejected shows the failure message. -/
theorem uploadToLighthouse_without_handle_counterexample :
    unconnectedView.selectedFile = some { name := "prompt.json" } ∧
    unconnectedView.contract = none ∧
    uploads (uploadToLighthouse rejectingStorageWorld unconnectedView []).2
      = [{ name := "prompt.json" }] ∧
    alerts (uploadToLighthouse rejectingStorageWorld unconnectedView []).2
      = [msgSubmitFailed] ∧
    alerts (uploadToLighthouse rejectingStorageWorld unconnectedView []).2 ≠ [] := by
  decide

/-- Sample submissions on a page that never connected: one whose upload yields an
identifier, one on a storage service without a `data` object in its response. -/
theorem uploadToLighthouse_without_handle_witness :
    unconnectedView.selectedFile = some { name := "prompt.json" } ∧
    unconnectedView.contract = none ∧
    Event.upload { name := "prompt.json" } (sampleWorld none none).apiKey
        (.ok (.data (some "Qmprompt.json")))
      ∈ (uploadToLighthouse (sampleWorld none none) unconnectedView []).2 ∧
    (uploadToLighthouse (sampleWorld none none) unconnectedView []).1 = unconnectedView ∧
    uploads (uploadToLighthouse (sampleWorld none none) unconnectedView []).2
      = [{ name := "prompt.json" }] ∧
    alerts (uploadToLighthouse (sampleWorld none none) unconnectedView []).2 = [] ∧
    (∃ e ∈ (uploadToLighthouse noDataWorld unconnectedView []).2,
      e.isFailedUpload = true) ∧
    alerts (uploadToLighthouse noDataWorld unconnectedView []).2 = [msgSubmitFailed] :=
  ⟨rfl, rfl, by decide,
   (uploadToLighthouse_without_handle (sampleWorld none none) unconnectedView []
      { name := "prompt.json" } rfl rfl).1,
   (uploadToLighthouse_without_handle (sampleWorld none none) unconnectedView []
      { name := "prompt.json" } rfl rfl).2.1,
   ((uploadToLighthouse_without_handle (sampleWorld none none) unconnectedView []
      { name := "prompt.json" } rfl rfl).2.2.2.2.2.1 (some "Qmprompt.json") (by decide)).1,
   by decide,
   (uploadToLighthouse_without_handle noDataWorld unconnectedView []
      { name := "prompt.json" } rfl rfl).2.2.2.2.2.2.1 (by decide)⟩

end PromptApp
